import Mathlib

/-!
Shallow embedding of `src/index.ts` of zkTerm/zk-compression: a benchmarking
script that submits a standard SOL transfer and a Light-Protocol compressed
transfer against a chain backend and compares the reported fees.

Modelling conventions:
* Machine numbers are `Nat`/`Int`/`Rat`.  The script's two floating-point
  amount computations (`Math.floor(TEST_AMOUNT * LAMPORTS_PER_SOL)` and
  `Math.floor(TEST_AMOUNT * 2 * LAMPORTS_PER_SOL)`) are embedded with exact
  rational arithmetic; for these inputs the IEEE-754 double products round to
  1000000.00000000002 and 2000000.00000000004 respectively, so both floors
  agree with the exact rational floors (1000000 and 2000000).
* Public keys, transaction hashes and error messages are `String`s.
* Every RPC/SDK interaction goes through a `Chain` oracle that supplies the
  backend's responses.  Calls that the script awaits and that can reject
  (`sendAndConfirmTransaction`, `sendAndConfirmTx`, the compressed `transfer`
  primitive, `connection.confirmTransaction`) return `Except Err`; pure
  queries (`getAccountInfo`, `getStateTreeInfos`, `getTokenPoolInfos`,
  `getTransaction`, `getBalance`, `getLatestBlockhash`) are modelled total.
* Every submission, confirmation poll and sleep is recorded in an `Action`
  trace threaded through the run, so "submits exactly one transaction" and
  ordering properties are statements about that trace.
* Third-party SDK calls are environment primitives: `getAssociatedTokenAddressSync`
  is an injective deterministic derivation, the instruction builders produce
  the corresponding `Ix` values with the arguments the script passes, and the
  compressed-token `transfer` primitive submits one transaction carrying a
  compressed transfer of the given amount (the SDK behaviour the script
  relies on).
-/

namespace ZkFee

abbrev PubKey := String
abbrev TxHash := String
abbrev Err := String

/-- Constant `LAMPORTS_PER_SOL` from the chain client library. -/
def LAMPORTS_PER_SOL : Nat := 1000000000

/-- Constant `TEST_AMOUNT = 0.001` (index.ts line 60), as an exact rational. -/
def TEST_AMOUNT : ℚ := 1 / 1000

/-- Mint `So11111111111111111111111111111111111111112` (index.ts lines 56-58). -/
def NATIVE_SOL_MINT : PubKey := "So11111111111111111111111111111111111111112"

/-- Value of `Math.floor(TEST_AMOUNT * LAMPORTS_PER_SOL)` (index.ts lines 88 and 130). -/
def standardLamports : Nat := (⌊TEST_AMOUNT * (LAMPORTS_PER_SOL : ℚ)⌋).toNat

/-- Value of `Math.floor(TEST_AMOUNT * 2 * LAMPORTS_PER_SOL)` (index.ts line 129). -/
def lamportsToCompress : Nat := (⌊TEST_AMOUNT * 2 * (LAMPORTS_PER_SOL : ℚ)⌋).toNat

/-- A state-tree record returned by `lightRpc.getStateTreeInfos()`; the script
only inspects the `nextTreeInfo` field (null for the currently writable tree). -/
structure TreeInfo where
  tree : PubKey
  nextTreeInfo : Option PubKey
deriving Repr, DecidableEq

/-- A token-pool record returned by `getTokenPoolInfos`. -/
structure TokenPoolInfo where
  poolPda : PubKey
deriving Repr, DecidableEq

/-- The `meta` object of a fetched transaction; `fee` may be absent. -/
structure Meta where
  fee : Option Nat
deriving Repr, DecidableEq

/-- A transaction record as returned by `connection.getTransaction`
(`null` maps to `none` one level up); its `meta` may itself be null. -/
structure TxRecord where
  meta : Option Meta
deriving Repr, DecidableEq

/-- The instructions the script builds.  Each constructor records exactly the
arguments the script passes to the corresponding builder. -/
inductive Ix where
  | systemTransfer (fromPubkey toPubkey : PubKey) (lamports : Nat)
  | createAta (payer ata owner mint : PubKey)
  | syncNative (ata : PubKey)
  | setComputeUnitLimit (units : Nat)
  | compress (payer owner source toAddress : PubKey) (amount : Nat) (mint : PubKey)
      (outputStateTreeInfo : Option TreeInfo) (tokenPoolInfo : Option TokenPoolInfo)
  | compressedTransfer (mint : PubKey) (amount : Nat) (owner toAddress : PubKey)
deriving Repr, DecidableEq

/-- A transaction is the list of its instructions, in order. -/
abbrev Tx := List Ix

/-- Observable actions of one run, in order: transaction submissions
(with their confirmation wait fused, as in `sendAndConfirmTransaction`),
standalone `connection.confirmTransaction` polls, and sleeps. -/
inductive Action where
  | submit (tx : Tx)
  | confirmCall (h : TxHash)
  | sleep (ms : Nat)
deriving Repr, DecidableEq

/-- Backend oracle: the chain's (and compression service's) responses. -/
structure Chain where
  getAccountInfo : PubKey → Option Nat
  stateTreeInfos : List TreeInfo
  tokenPools : PubKey → List TokenPoolInfo
  sendResults : List (Except Err TxHash)
  confirmResults : List (Except Err Unit)
  txRecord : TxHash → Option TxRecord
  getBalance : PubKey → Nat
  blockhash : String

/-- Run state: the trace so far plus counters pairing each submission /
confirmation call with the backend response it consumes. -/
structure RunState where
  actions : List Action
  sends : Nat
  confs : Nat
deriving Repr, DecidableEq

def initialState : RunState := ⟨[], 0, 0⟩

/-- Backend response to the `i`-th submission of the run. -/
def sendResp (c : Chain) (i : Nat) : Except Err TxHash :=
  c.sendResults.getD i (.error "connection failure")

/-- Backend response to the `i`-th standalone confirmation poll of the run. -/
def confirmResp (c : Chain) (i : Nat) : Except Err Unit :=
  c.confirmResults.getD i (.error "confirmation failure")

/-- One submission-and-confirmation call (`sendAndConfirmTransaction`,
`sendAndConfirmTx`, or the submission inside the compressed `transfer`
primitive): records the transaction and consumes the next send response. -/
def sendTx (c : Chain) (tx : Tx) (s : RunState) : Except Err TxHash × RunState :=
  (sendResp c s.sends, ⟨s.actions ++ [.submit tx], s.sends + 1, s.confs⟩)

/-- One `connection.confirmTransaction` call. -/
def confirmTx (c : Chain) (h : TxHash) (s : RunState) : Except Err Unit × RunState :=
  (confirmResp c s.confs, ⟨s.actions ++ [.confirmCall h], s.sends, s.confs + 1⟩)

/-- Embeds `txDetails?.meta?.fee || 0` (index.ts lines 106 and 244): optional
chaining with `|| 0`; on `Nat` the `|| 0` coalescing of a present fee `0`
is the identity. -/
def jsFee (r : Option TxRecord) : Nat :=
  ((r.bind TxRecord.meta).bind Meta.fee).getD 0

/-- Left-pad the decimal digits of `n` with zeros to width 9. -/
def pad9 (n : Nat) : String :=
  String.mk (List.replicate (9 - (Nat.repr n).length) '0') ++ Nat.repr n

/-- Embeds `(fee / LAMPORTS_PER_SOL).toFixed(9)` (index.ts lines 107 and 245),
as the exact 9-fractional-digit decimal rendering of `fee / 10^9`; for the
fee magnitudes a transaction can report, the double quotient is within
5·10^-10 of the exact value, so `toFixed(9)` returns the same string. -/
def feeSOLString (fee : Nat) : String :=
  Nat.repr (fee / LAMPORTS_PER_SOL) ++ "." ++ pad9 (fee % LAMPORTS_PER_SOL)

/-- The `TestResult` interface (index.ts lines 62-68). -/
structure TestResult where
  type : String
  txHash : TxHash
  fee : Nat
  feeSOL : String
  explorerUrl : String
deriving Repr, DecidableEq

/-- Configuration read from the environment (index.ts lines 54-60):
`HELIUS_API_KEY` and `TEST_RECIPIENT_ADDRESS` default to `""` when unset;
`TEST_WALLET_MNEMONIC` is read raw inside `loadWallet`. -/
structure Config where
  heliusApiKey : String
  recipientAddress : String
  mnemonic : Option String
deriving Repr, DecidableEq

/-- The bip39 + ed25519-hd-key + `Keypair.fromSeed` pipeline of `loadWallet`:
a deterministic injective derivation of the wallet public key from the
mnemonic (an external-library computation the script delegates). -/
def deriveWallet (mnemonic : String) : PubKey :=
  "wallet:" ++ mnemonic

/-- Embeds `loadWallet` (index.ts lines 70-78): throws when the mnemonic is unset
(or empty, which is falsy in `if (!mnemonic)`), otherwise derives the key. -/
def loadWallet (cfg : Config) : Except Err PubKey :=
  match cfg.mnemonic with
  | none => .error "TEST_WALLET_MNEMONIC not set"
  | some m => if m = "" then .error "TEST_WALLET_MNEMONIC not set" else .ok (deriveWallet m)

/-- Embeds `getAssociatedTokenAddressSync(mint, owner, false, TOKEN_PROGRAM_ID)`:
a deterministic injective address derivation (external library). -/
def deriveAta (mint owner : PubKey) : PubKey :=
  "ata:" ++ mint ++ ":" ++ owner

/-- Embeds `testStandardTransfer` (index.ts lines 80-118): build one transaction
holding a single `SystemProgram.transfer` of `standardLamports` lamports
from the wallet to the recipient, submit-and-confirm it, fetch the record,
and report the fee. -/
def testStandardTransfer (cfg : Config) (walletPk : PubKey) (c : Chain)
    (s : RunState) : Except Err TestResult × RunState :=
  let lamports := standardLamports
  let tx : Tx := [.systemTransfer walletPk cfg.recipientAddress lamports]
  match sendTx c tx s with
  | (.error e, s1) => (.error e, s1)
  | (.ok txHash, s1) =>
    let fee := jsFee (c.txRecord txHash)
    (.ok { type := "Standard Transfer", txHash := txHash, fee := fee,
           feeSOL := feeSOLString fee,
           explorerUrl := "https://solscan.io/tx/" ++ txHash }, s1)

/-- The wrap-step transaction (index.ts lines 141-181): when
`getAccountInfo` reports the associated token account absent, create + fund
(`lamportsToCompress`) + sync-native, in that order; when it already exists,
only fund + sync-native. -/
def wrapTxOf (c : Chain) (walletPk : PubKey) : Tx :=
  let associatedTokenAccount := deriveAta NATIVE_SOL_MINT walletPk
  match c.getAccountInfo associatedTokenAccount with
  | none =>
    [.createAta walletPk associatedTokenAccount walletPk NATIVE_SOL_MINT,
     .systemTransfer walletPk associatedTokenAccount lamportsToCompress,
     .syncNative associatedTokenAccount]
  | some _ =>
    [.systemTransfer walletPk associatedTokenAccount lamportsToCompress,
     .syncNative associatedTokenAccount]

/-- The compress instruction (index.ts lines 188-205): the state tree is
`treeInfos.filter(t => t.nextTreeInfo === null)[0]` and the token pool is
`tokenPoolInfos[0]`; both unguarded `[0]` indexings are `head?`, so an
absent element (`undefined`) is `none`, passed on to the builder as-is. -/
def compressIxOf (c : Chain) (walletPk : PubKey) : Ix :=
  let treeInfo := (c.stateTreeInfos.filter fun t => t.nextTreeInfo = none).head?
  let tokenPoolInfo := (c.tokenPools NATIVE_SOL_MINT).head?
  .compress walletPk walletPk (deriveAta NATIVE_SOL_MINT walletPk)
    walletPk lamportsToCompress NATIVE_SOL_MINT treeInfo tokenPoolInfo

/-- Embeds the compute-budget instruction with units 1000000
(index.ts lines 207-209). -/
def computeUnitsIx : Ix := .setComputeUnitLimit 1000000

/-- Embeds `testCompressedTransfer` (index.ts lines 120-256): wrap step (create the
associated token account only when absent, fund it with `lamportsToCompress`,
sync), compress step (select the state tree whose `nextTreeInfo` is null and
the first token pool via unguarded `[0]`, submit compute-budget + compress,
then a standalone confirmation poll), transfer step (compressed transfer of
`standardLamports` to the recipient, standalone confirmation poll), then
fetch the final transfer's record and report its fee. -/
def testCompressedTransfer (cfg : Config) (walletPk : PubKey) (c : Chain)
    (s : RunState) : Except Err TestResult × RunState :=
  let recipient := cfg.recipientAddress
  match sendTx c (wrapTxOf c walletPk) s with
  | (.error e, s1) => (.error e, s1)
  | (.ok _, s1) =>
    match sendTx c [computeUnitsIx, compressIxOf c walletPk] s1 with
    | (.error e, s2) => (.error e, s2)
    | (.ok compressTxId, s2) =>
      match confirmTx c compressTxId s2 with
      | (.error e, s3) => (.error e, s3)
      | (.ok _, s3) =>
        match sendTx c
            [.compressedTransfer NATIVE_SOL_MINT standardLamports walletPk recipient] s3 with
        | (.error e, s4) => (.error e, s4)
        | (.ok transferTxId, s4) =>
          match confirmTx c transferTxId s4 with
          | (.error e, s5) => (.error e, s5)
          | (.ok _, s5) =>
            let fee := jsFee (c.txRecord transferTxId)
            (.ok { type := "Compressed Transfer", txHash := transferTxId, fee := fee,
                   feeSOL := feeSOLString fee,
                   explorerUrl := "https://solscan.io/tx/" ++ transferTxId }, s5)

/-- The final `KEY FINDINGS` console branch (index.ts lines 320-335). -/
inductive ReportBranch where
  | equalFees (fee : Nat)
  | differentFees (standardFee compressedFee : Nat)
deriving Repr, DecidableEq

/-- Embeds the branch on `standardResult.fee === compressedResult.fee`
(index.ts lines 321-335). -/
def reportBranch (standardResult compressedResult : TestResult) : ReportBranch :=
  if standardResult.fee = compressedResult.fee then
    .equalFees standardResult.fee
  else
    .differentFees standardResult.fee compressedResult.fee

/-- What a successful run reports. -/
structure Report where
  standard : TestResult
  compressed : TestResult
  findings : ReportBranch
deriving Repr, DecidableEq

/-- Embeds `main` (index.ts lines 258-345): configuration checks, wallet load,
balance query, standard probe, 5000 ms sleep, compressed probe, summary. -/
def main (cfg : Config) (c : Chain) (s : RunState) : Except Err Report × RunState :=
  if cfg.heliusApiKey = "" then
    (.error "HELIUS_API_KEY environment variable not set", s)
  else if cfg.recipientAddress = "" then
    (.error "TEST_RECIPIENT_ADDRESS environment variable not set", s)
  else
    match loadWallet cfg with
    | .error e => (.error e, s)
    | .ok walletPk =>
      let _balance := c.getBalance walletPk
      match testStandardTransfer cfg walletPk c s with
      | (.error e, s1) => (.error e, s1)
      | (.ok standardResult, s1) =>
        let s1 : RunState := ⟨s1.actions ++ [.sleep 5000], s1.sends, s1.confs⟩
        match testCompressedTransfer cfg walletPk c s1 with
        | (.error e, s2) => (.error e, s2)
        | (.ok compressedResult, s2) =>
          (.ok { standard := standardResult, compressed := compressedResult,
                 findings := reportBranch standardResult compressedResult }, s2)

/-- Outcome of the whole process, including the exit code. -/
structure ProcessOutcome where
  trace : List Action
  loggedError : Option Err
  exitCode : Nat
deriving Repr, DecidableEq

/-- The top level `main().catch(console.error)` (index.ts line 347): a
rejected promise from `main` is handled by the `.catch` handler, which only
logs the error; since the rejection is handled and nothing sets
`process.exitCode`, the Node process terminates with exit code 0 in both
the success and the failure case. -/
def runProcess (cfg : Config) (c : Chain) : ProcessOutcome :=
  match main cfg c initialState with
  | (.ok _, s) => ⟨s.actions, none, 0⟩
  | (.error e, s) => ⟨s.actions, some e, 0⟩

/-! Trace observers: functions that measure a recorded trace.  They are not
part of the embedded program; they state what a trace contains. -/

/-- Amounts of the `compress` instructions inside one transaction. -/
def txCompressAmounts (tx : Tx) : List Nat :=
  tx.foldr (fun i acc =>
    match i with
    | .compress _ _ _ _ amount _ _ _ => amount :: acc
    | _ => acc) []

/-- Amounts of all `compress` instructions submitted in a trace, in order. -/
def compressAmounts (as : List Action) : List Nat :=
  as.foldr (fun a acc =>
    match a with
    | .submit tx => txCompressAmounts tx ++ acc
    | _ => acc) []

/-- Amounts of the `compressedTransfer` instructions inside one transaction. -/
def txCTransferAmounts (tx : Tx) : List Nat :=
  tx.foldr (fun i acc =>
    match i with
    | .compressedTransfer _ amount _ _ => amount :: acc
    | _ => acc) []

/-- Amounts of all `compressedTransfer` instructions submitted in a trace. -/
def cTransferAmounts (as : List Action) : List Nat :=
  as.foldr (fun a acc =>
    match a with
    | .submit tx => txCTransferAmounts tx ++ acc
    | _ => acc) []

/-- Effect of one instruction on `w`'s compressed token balance:
`compress` credits its `toAddress`; `compressedTransfer` debits its owner
and credits its destination. -/
def ixDelta (w : PubKey) : Ix → Int
  | .compress _ _ _ toAddress amount _ _ _ =>
      if toAddress = w then (amount : Int) else 0
  | .compressedTransfer _ amount owner toAddress =>
      (if toAddress = w then (amount : Int) else 0)
        - (if owner = w then (amount : Int) else 0)
  | _ => 0

/-- Net effect of a trace on `w`'s compressed token balance. -/
def compressedDelta (w : PubKey) (as : List Action) : Int :=
  (as.map fun a =>
    match a with
    | .submit tx => (tx.map (ixDelta w)).sum
    | _ => 0).sum

/-! Concrete fixtures used to instantiate the theorems. -/

def cfgW : Config := ⟨"key", "recip", some "abandon ability"⟩

def walletW : PubKey := deriveWallet "abandon ability"

/-- A backend on which every call of a full run succeeds; the wallet's
associated token account does not pre-exist. -/
def chainOk : Chain :=
  { getAccountInfo := fun _ => none
    stateTreeInfos := [⟨"treeA", some "treeB"⟩, ⟨"treeB", none⟩, ⟨"treeC", none⟩]
    tokenPools := fun _ => [⟨"pool1"⟩, ⟨"pool2"⟩]
    sendResults := [.ok "h1", .ok "h2", .ok "h3", .ok "h4"]
    confirmResults := [.ok (), .ok ()]
    txRecord := fun h =>
      if h = "h1" then some ⟨some ⟨some 5000⟩⟩
      else if h = "h4" then some ⟨some ⟨some 5000⟩⟩
      else none
    getBalance := fun _ => 100000000
    blockhash := "bh" }

/-- Like `chainOk` but the associated token account already exists. -/
def chainAta : Chain :=
  { chainOk with getAccountInfo := fun _ => some 2039280 }

/-- Like `chainOk` but the first submission is rejected. -/
def chainFail : Chain :=
  { chainOk with sendResults := [.error "boom"] }

/-- Like `chainOk` but no state tree has a null next-tree pointer and the
native mint has an empty token-pool list. -/
def chainNoTree : Chain :=
  { chainOk with
    stateTreeInfos := [⟨"treeA", some "treeB"⟩, ⟨"treeB", some "treeC"⟩]
    tokenPools := fun _ => [] }

/-- Like `chainOk` but the final transfer's record has a null `meta`. -/
def chainNoFee : Chain :=
  { chainOk with txRecord := fun h => if h = "h1" then some ⟨none⟩ else none }

def resultFee (t : String) (h : TxHash) (fee : Nat) : TestResult :=
  { type := t, txHash := h, fee := fee, feeSOL := feeSOLString fee,
    explorerUrl := "https://solscan.io/tx/" ++ h }

/-- The report of the successful run of `main` on `cfgW` and `chainOk`. -/
def repW : Report :=
  ⟨resultFee "Standard Transfer" "h1" 5000,
   resultFee "Compressed Transfer" "h4" 5000,
   .equalFees 5000⟩

/-- The final run state of the successful run of `main` on `cfgW` and
`chainOk`. -/
def sfW : RunState :=
  ⟨[.submit [.systemTransfer walletW "recip" standardLamports],
    .sleep 5000,
    .submit (wrapTxOf chainOk walletW),
    .submit [computeUnitsIx, compressIxOf chainOk walletW],
    .confirmCall "h3",
    .submit [.compressedTransfer NATIVE_SOL_MINT standardLamports walletW "recip"],
    .confirmCall "h4"],
   4, 2⟩

/-! Shared helper lemmas. -/

theorem standardLamports_eq : standardLamports = 1000000 := by
  unfold standardLamports TEST_AMOUNT LAMPORTS_PER_SOL
  norm_num
  rfl

theorem lamportsToCompress_eq : lamportsToCompress = 2000000 := by
  unfold lamportsToCompress TEST_AMOUNT LAMPORTS_PER_SOL
  norm_num
  rfl

theorem head_filter_eq_find {α : Type} (p : α → Bool) (l : List α) :
    (l.filter p).head? = l.find? p := by
  induction l with
  | nil => rfl
  | cons a l ih =>
    by_cases h : p a <;> simp [List.filter_cons, List.find?_cons, h, ih]

/-- A fully successful compressed-probe run, spelled out. -/
theorem compressedRun_ok (cfg : Config) (w : PubKey) (c : Chain) (s : RunState)
    (v1 v2 v3 : TxHash)
    (h1 : sendResp c s.sends = .ok v1)
    (h2 : sendResp c (s.sends + 1) = .ok v2)
    (hc1 : confirmResp c s.confs = .ok ())
    (h3 : sendResp c (s.sends + 2) = .ok v3)
    (hc2 : confirmResp c (s.confs + 1) = .ok ()) :
    testCompressedTransfer cfg w c s
      = (.ok (resultFee "Compressed Transfer" v3 (jsFee (c.txRecord v3))),
         ⟨s.actions
            ++ [.submit (wrapTxOf c w),
                .submit [computeUnitsIx, compressIxOf c w],
                .confirmCall v2,
                .submit [.compressedTransfer NATIVE_SOL_MINT standardLamports w
                           cfg.recipientAddress],
                .confirmCall v3],
          s.sends + 3, s.confs + 2⟩) := by
  simp [testCompressedTransfer, sendTx, confirmTx, h1, h2, hc1, h3, hc2, resultFee]

/-- A successful compressed-probe run consumed five successful backend
responses, and its result is the final transfer's fee record. -/
theorem compressedRun_ok_inv (cfg : Config) (w : PubKey) (c : Chain) (s : RunState)
    (r : TestResult)
    (hok : (testCompressedTransfer cfg w c s).1 = .ok r) :
    ∃ v1 v2 v3,
      sendResp c s.sends = .ok v1
      ∧ sendResp c (s.sends + 1) = .ok v2
      ∧ confirmResp c s.confs = .ok ()
      ∧ sendResp c (s.sends + 2) = .ok v3
      ∧ confirmResp c (s.confs + 1) = .ok ()
      ∧ r = resultFee "Compressed Transfer" v3 (jsFee (c.txRecord v3)) := by
  rcases h1 : sendResp c s.sends with e | v1
  · simp [testCompressedTransfer, sendTx, h1] at hok
  · rcases h2 : sendResp c (s.sends + 1) with e | v2
    · simp [testCompressedTransfer, sendTx, h1, h2] at hok
    · rcases hc1 : confirmResp c s.confs with e | u
      · simp [testCompressedTransfer, sendTx, confirmTx, h1, h2, hc1] at hok
      · cases u
        rcases h3 : sendResp c (s.sends + 2) with e | v3
        · simp [testCompressedTransfer, sendTx, confirmTx, h1, h2, hc1, h3] at hok
        · rcases hc2 : confirmResp c (s.confs + 1) with e | u2
          · simp [testCompressedTransfer, sendTx, confirmTx, h1, h2, hc1, h3, hc2] at hok
          · cases u2
            rw [compressedRun_ok cfg w c s v1 v2 v3 h1 h2 hc1 h3 hc2] at hok
            exact ⟨v1, v2, v3, rfl, rfl, rfl, rfl, rfl, by simpa using hok.symm⟩

/-- After a successful wrap submission, the compress-step transaction is the
next submission, whatever happens later. -/
theorem compressedRun_trace_after_wrap (cfg : Config) (w : PubKey) (c : Chain)
    (s : RunState) (v1 : TxHash)
    (h1 : sendResp c s.sends = .ok v1) :
    ∃ rest2,
      (testCompressedTransfer cfg w c s).2.actions
        = s.actions ++ .submit (wrapTxOf c w)
            :: .submit [computeUnitsIx, compressIxOf c w] :: rest2 := by
  rcases h2 : sendResp c (s.sends + 1) with e | v2
  · exact ⟨[], by simp [testCompressedTransfer, sendTx, h1, h2]⟩
  · rcases hc1 : confirmResp c s.confs with e | u
    · exact ⟨[.confirmCall v2],
        by simp [testCompressedTransfer, sendTx, confirmTx, h1, h2, hc1]⟩
    · cases u
      rcases h3 : sendResp c (s.sends + 2) with e | v3
      · exact ⟨[.confirmCall v2,
          .submit [.compressedTransfer NATIVE_SOL_MINT standardLamports w
                     cfg.recipientAddress]],
          by simp [testCompressedTransfer, sendTx, confirmTx, h1, h2, hc1, h3]⟩
      · rcases hc2 : confirmResp c (s.confs + 1) with e | u2
        · exact ⟨[.confirmCall v2,
            .submit [.compressedTransfer NATIVE_SOL_MINT standardLamports w
                       cfg.recipientAddress],
            .confirmCall v3],
            by simp [testCompressedTransfer, sendTx, confirmTx, h1, h2, hc1, h3, hc2]⟩
        · cases u2
          exact ⟨[.confirmCall v2,
            .submit [.compressedTransfer NATIVE_SOL_MINT standardLamports w
                       cfg.recipientAddress],
            .confirmCall v3],
            by simp [testCompressedTransfer, sendTx, confirmTx, h1, h2, hc1, h3, hc2]⟩

/-- The compressed probe's first submission is the wrap transaction, and the
wrap step submits nothing else before the compress-step transaction. -/
theorem compressedRun_trace_shape (cfg : Config) (w : PubKey) (c : Chain)
    (s : RunState) :
    ∃ rest,
      (testCompressedTransfer cfg w c s).2.actions
        = s.actions ++ .submit (wrapTxOf c w) :: rest
      ∧ (rest = []
         ∨ ∃ rest2, rest = .submit [computeUnitsIx, compressIxOf c w] :: rest2) := by
  rcases h1 : sendResp c s.sends with e | v1
  · exact ⟨[], by simp [testCompressedTransfer, sendTx, h1], .inl rfl⟩
  · obtain ⟨rest2, hr⟩ := compressedRun_trace_after_wrap cfg w c s v1 h1
    exact ⟨.submit [computeUnitsIx, compressIxOf c w] :: rest2, hr, .inr ⟨rest2, rfl⟩⟩

/-- A successful `main` run decomposes into a successful standard probe,
the 5000 ms sleep, and a successful compressed probe, in that order. -/
theorem main_ok_inv (cfg : Config) (c : Chain) (rep : Report) (sf : RunState)
    (hm : main cfg c initialState = (.ok rep, sf)) :
    ∃ w r1 s1 r2,
      loadWallet cfg = .ok w
      ∧ testStandardTransfer cfg w c initialState = (.ok r1, s1)
      ∧ testCompressedTransfer cfg w c ⟨s1.actions ++ [.sleep 5000], s1.sends, s1.confs⟩
          = (.ok r2, sf)
      ∧ rep = ⟨r1, r2, reportBranch r1 r2⟩ := by
  by_cases hk : cfg.heliusApiKey = ""
  · simp [main, hk] at hm
  · by_cases hr : cfg.recipientAddress = ""
    · simp [main, hk, hr] at hm
    · rcases hw : loadWallet cfg with e | w
      · simp [main, hk, hr, hw] at hm
      · rcases hstd : testStandardTransfer cfg w c initialState with ⟨res1, s1⟩
        rcases res1 with e | r1
        · simp [main, hk, hr, hw, hstd] at hm
        · rcases hcomp : testCompressedTransfer cfg w c
              ⟨s1.actions ++ [.sleep 5000], s1.sends, s1.confs⟩ with ⟨res2, s2⟩
          rcases res2 with e | r2
          · simp [main, hk, hr, hw, hstd, hcomp] at hm
          · refine ⟨w, r1, s1, r2, rfl, hstd, ?_, ?_⟩ <;>
              simp [main, hk, hr, hw, hstd, hcomp] at hm <;>
              simp [hcomp, hm.1, hm.2]

/-! Claim theorems. -/

/-- C1: the standard-transfer prober submits exactly one transaction, which
contains a single native transfer of exactly
`floor(0.001 × LAMPORTS_PER_SOL) = 1000000` lamports from the wallet's
public key to the configured recipient, and the fee in the returned probe
result equals the fee the backend recorded in that transaction's metadata. -/
theorem standard_probe_single_transfer_and_fee
    (cfg : Config) (walletPk : PubKey) (c : Chain) (s : RunState)
    (h : TxHash) (f : Nat)
    (hsend : sendResp c s.sends = .ok h)
    (hrec : c.txRecord h = some ⟨some ⟨some f⟩⟩) :
    (testStandardTransfer cfg walletPk c s).2.actions
        = s.actions
          ++ [.submit [.systemTransfer walletPk cfg.recipientAddress standardLamports]]
      ∧ standardLamports = 1000000
      ∧ ∃ r, (testStandardTransfer cfg walletPk c s).1 = .ok r
          ∧ r.fee = f ∧ r.txHash = h := by
  refine ⟨?_, standardLamports_eq, ?_⟩ <;>
    simp [testStandardTransfer, sendTx, hsend, jsFee, hrec]

theorem standard_probe_single_transfer_and_fee_witness :
    (testStandardTransfer cfgW walletW chainOk initialState).2.actions
        = initialState.actions
          ++ [.submit [.systemTransfer walletW cfgW.recipientAddress standardLamports]]
      ∧ standardLamports = 1000000
      ∧ ∃ r, (testStandardTransfer cfgW walletW chainOk initialState).1 = .ok r
          ∧ r.fee = 5000 ∧ r.txHash = "h1" :=
  standard_probe_single_transfer_and_fee cfgW walletW chainOk initialState
    "h1" 5000 rfl rfl

/-- C2: in every successful run of the compressed-transfer prober, exactly
one compress instruction is submitted and it compresses exactly
`floor(0.001 × 2 × LAMPORTS_PER_SOL) = 2 × floor(0.001 × LAMPORTS_PER_SOL)`
lamports, exactly one compressed transfer is submitted and it moves exactly
`floor(0.001 × LAMPORTS_PER_SOL)` lamports, strictly less than was
compressed, so the run leaves a nonzero residual compressed balance on the
wallet of exactly one test amount. -/
theorem compressed_probe_amounts
    (cfg : Config) (walletPk : PubKey) (c : Chain) (s : RunState) (r : TestResult)
    (hok : (testCompressedTransfer cfg walletPk c s).1 = .ok r)
    (hne : walletPk ≠ cfg.recipientAddress) :
    ∃ t, (testCompressedTransfer cfg walletPk c s).2.actions = s.actions ++ t
      ∧ compressAmounts t = [lamportsToCompress]
      ∧ cTransferAmounts t = [standardLamports]
      ∧ lamportsToCompress = 2 * standardLamports
      ∧ standardLamports < lamportsToCompress
      ∧ compressedDelta walletPk t = (standardLamports : Int)
      ∧ 0 < standardLamports := by
  obtain ⟨v1, v2, v3, h1, h2, hc1, h3, hc2, hr⟩ :=
    compressedRun_ok_inv cfg walletPk c s r hok
  rw [compressedRun_ok cfg walletPk c s v1 v2 v3 h1 h2 hc1 h3 hc2]
  refine ⟨_, rfl, ?_, ?_, ?_, ?_, ?_, ?_⟩
  · cases hata : c.getAccountInfo (deriveAta NATIVE_SOL_MINT walletPk) <;>
      simp [compressAmounts, txCompressAmounts, wrapTxOf, computeUnitsIx,
        compressIxOf, hata]
  · cases hata : c.getAccountInfo (deriveAta NATIVE_SOL_MINT walletPk) <;>
      simp [cTransferAmounts, txCTransferAmounts, wrapTxOf, computeUnitsIx,
        compressIxOf, hata]
  · rw [lamportsToCompress_eq, standardLamports_eq]
  · rw [lamportsToCompress_eq, standardLamports_eq]; norm_num
  · cases hata : c.getAccountInfo (deriveAta NATIVE_SOL_MINT walletPk) <;>
      simp [compressedDelta, ixDelta, wrapTxOf, computeUnitsIx, compressIxOf,
        hata, Ne.symm hne, lamportsToCompress_eq, standardLamports_eq]
  · rw [standardLamports_eq]; norm_num

theorem compressed_probe_amounts_witness :
    ∃ t, (testCompressedTransfer cfgW walletW chainOk initialState).2.actions
          = initialState.actions ++ t
      ∧ compressAmounts t = [lamportsToCompress]
      ∧ cTransferAmounts t = [standardLamports]
      ∧ lamportsToCompress = 2 * standardLamports
      ∧ standardLamports < lamportsToCompress
      ∧ compressedDelta walletW t = (standardLamports : Int)
      ∧ 0 < standardLamports :=
  compressed_probe_amounts cfgW walletW chainOk initialState
    (resultFee "Compressed Transfer" "h3" 0) rfl (by decide)

/-- C3: the wrap step submits exactly one transaction: when the wallet's
associated token account for the native mint does not exist, it contains
create-account, transfer and sync-native in that order; when the account
exists, it contains only transfer and sync-native; and it is the only
transaction the wrap step submits (the next submission, if any, is the
compress-step transaction). -/
theorem wrap_step_conditional
    (cfg : Config) (walletPk : PubKey) (c : Chain) (s : RunState) :
    wrapTxOf c walletPk
        = (match c.getAccountInfo (deriveAta NATIVE_SOL_MINT walletPk) with
           | none =>
             [.createAta walletPk (deriveAta NATIVE_SOL_MINT walletPk) walletPk
                NATIVE_SOL_MINT,
              .systemTransfer walletPk (deriveAta NATIVE_SOL_MINT walletPk)
                lamportsToCompress,
              .syncNative (deriveAta NATIVE_SOL_MINT walletPk)]
           | some _ =>
             [.systemTransfer walletPk (deriveAta NATIVE_SOL_MINT walletPk)
                lamportsToCompress,
              .syncNative (deriveAta NATIVE_SOL_MINT walletPk)])
      ∧ ∃ rest,
          (testCompressedTransfer cfg walletPk c s).2.actions
            = s.actions ++ .submit (wrapTxOf c walletPk) :: rest
          ∧ (rest = []
             ∨ ∃ rest2,
                 rest = .submit [computeUnitsIx, compressIxOf c walletPk] :: rest2) :=
  ⟨rfl, compressedRun_trace_shape cfg walletPk c s⟩

theorem wrap_step_conditional_witness :
    (wrapTxOf chainOk walletW
        = [.createAta walletW (deriveAta NATIVE_SOL_MINT walletW) walletW
             NATIVE_SOL_MINT,
           .systemTransfer walletW (deriveAta NATIVE_SOL_MINT walletW)
             lamportsToCompress,
           .syncNative (deriveAta NATIVE_SOL_MINT walletW)])
    ∧ (wrapTxOf chainAta walletW
        = [.systemTransfer walletW (deriveAta NATIVE_SOL_MINT walletW)
             lamportsToCompress,
           .syncNative (deriveAta NATIVE_SOL_MINT walletW)]) := by
  have hnone := (wrap_step_conditional cfgW walletW chainOk initialState).1
  have hsome := (wrap_step_conditional cfgW walletW chainAta initialState).1
  exact ⟨hnone, hsome⟩

/-- C4 counterexample: with a valid configuration and a backend that rejects
the first submission, the rejection propagates out of `main` to the
top-level `.catch(console.error)` handler, which logs it — but the process
exit code is 0, not non-zero, because the handled rejection leaves Node's
default exit code in place. -/
theorem exit_code_zero_counterexample :
    (runProcess cfgW chainFail).loggedError = some "boom"
    ∧ ¬ (runProcess cfgW chainFail).exitCode ≠ 0 := by
  exact ⟨rfl, fun hne => hne rfl⟩

/-- C4 (amended): every exception raised by a submission or confirmation
call during either probe propagates uncaught out of `main` to the top-level
handler, which logs the error; the process then exits with exit code 0 (the
`.catch(console.error)` handler swallows the rejection and nothing sets a
non-zero exit code). -/
theorem error_propagation_and_exit_code
    (cfg : Config) (c : Chain) (w : PubKey) (e : Err)
    (hk : cfg.heliusApiKey ≠ "") (hr : cfg.recipientAddress ≠ "")
    (hw : loadWallet cfg = .ok w) :
    (∀ s, sendResp c s.sends = .error e →
        (testStandardTransfer cfg w c s).1 = .error e)
    ∧ ((testStandardTransfer cfg w c initialState).1 = .error e →
        (main cfg c initialState).1 = .error e)
    ∧ (∀ r1 s1, testStandardTransfer cfg w c initialState = (.ok r1, s1) →
        (testCompressedTransfer cfg w c
            ⟨s1.actions ++ [.sleep 5000], s1.sends, s1.confs⟩).1 = .error e →
        (main cfg c initialState).1 = .error e)
    ∧ ((main cfg c initialState).1 = .error e →
        (runProcess cfg c).loggedError = some e
        ∧ (runProcess cfg c).exitCode = 0) := by
  refine ⟨?_, ?_, ?_, ?_⟩
  · intro s hs
    simp [testStandardTransfer, sendTx, hs]
  · intro hstd
    rcases h : testStandardTransfer cfg w c initialState with ⟨res1, s1⟩
    rw [h] at hstd
    simp only at hstd
    subst hstd
    simp [main, hk, hr, hw, h]
  · intro r1 s1 h1 h2
    rcases hcomp : testCompressedTransfer cfg w c
        ⟨s1.actions ++ [.sleep 5000], s1.sends, s1.confs⟩ with ⟨res2, s2⟩
    rw [hcomp] at h2
    simp only at h2
    subst h2
    simp [main, hk, hr, hw, h1, hcomp]
  · intro hm
    rcases hmm : main cfg c initialState with ⟨res, sf⟩
    rw [hmm] at hm
    simp only at hm
    subst hm
    exact ⟨by simp [runProcess, hmm], by simp [runProcess, hmm]⟩

theorem error_propagation_and_exit_code_witness :
    (testStandardTransfer cfgW walletW chainFail initialState).1 = .error "boom"
    ∧ (runProcess cfgW chainFail).loggedError = some "boom"
    ∧ (runProcess cfgW chainFail).exitCode = 0 := by
  have h := error_propagation_and_exit_code cfgW chainFail walletW "boom"
      (by decide) (by decide) rfl
  have h1 := h.1 initialState rfl
  have h4 := h.2.2.2 (h.2.1 h1)
  exact ⟨h1, h4.1, h4.2⟩

/-- C5: a configuration with an empty API key or recipient address makes
`main` abort with the corresponding explicit "not set" error, and a missing
(or empty) seed phrase makes it abort inside wallet loading with
"TEST_WALLET_MNEMONIC not set"; in all three cases the run state is still
`initialState`, whose trace is empty — no transaction was submitted. -/
theorem missing_config_aborts (cfg : Config) (c : Chain) :
    (cfg.heliusApiKey = "" →
      main cfg c initialState
        = (.error "HELIUS_API_KEY environment variable not set", initialState))
    ∧ (cfg.heliusApiKey ≠ "" → cfg.recipientAddress = "" →
      main cfg c initialState
        = (.error "TEST_RECIPIENT_ADDRESS environment variable not set", initialState))
    ∧ (cfg.heliusApiKey ≠ "" → cfg.recipientAddress ≠ "" →
      (cfg.mnemonic = none ∨ cfg.mnemonic = some "") →
      main cfg c initialState = (.error "TEST_WALLET_MNEMONIC not set", initialState))
    ∧ initialState.actions = [] := by
  refine ⟨fun hk => by simp [main, hk], fun hk hr => by simp [main, hk, hr], ?_, rfl⟩
  rintro hk hr (hm | hm) <;> simp [main, hk, hr, loadWallet, hm]

theorem missing_config_aborts_witness :
    main ⟨"", "recip", some "abandon ability"⟩ chainOk initialState
        = (.error "HELIUS_API_KEY environment variable not set", initialState)
    ∧ main ⟨"key", "", some "abandon ability"⟩ chainOk initialState
        = (.error "TEST_RECIPIENT_ADDRESS environment variable not set", initialState)
    ∧ main ⟨"key", "recip", none⟩ chainOk initialState
        = (.error "TEST_WALLET_MNEMONIC not set", initialState)
    ∧ initialState.actions = [] := by
  refine ⟨(missing_config_aborts ⟨"", "recip", some "abandon ability"⟩ chainOk).1 rfl,
    (missing_config_aborts ⟨"key", "", some "abandon ability"⟩ chainOk).2.1
      (by decide) rfl,
    (missing_config_aborts ⟨"key", "recip", none⟩ chainOk).2.2.1
      (by decide) (by decide) (.inl rfl),
    rfl⟩

/-- C6: the reporter prints the "equal fees" branch iff the two fee values
are equal and the "different fees" branch iff they differ; the chosen branch
is a function of the two fee values alone; and in a successful run the
printed findings are exactly `reportBranch` of the two probe results. -/
theorem reporter_fee_equality_branch (r1 r2 : TestResult) :
    ((reportBranch r1 r2 = .equalFees r1.fee) ↔ r1.fee = r2.fee)
    ∧ ((∃ a b, reportBranch r1 r2 = .differentFees a b) ↔ r1.fee ≠ r2.fee)
    ∧ (∀ r1' r2' : TestResult, r1.fee = r1'.fee → r2.fee = r2'.fee →
        reportBranch r1 r2 = reportBranch r1' r2')
    ∧ (∀ (cfg : Config) (c : Chain) (rep : Report) (sf : RunState),
        main cfg c initialState = (.ok rep, sf) →
        rep.findings = reportBranch rep.standard rep.compressed) := by
  refine ⟨?_, ?_, ?_, ?_⟩
  · by_cases h : r1.fee = r2.fee <;> simp [reportBranch, h]
  · by_cases h : r1.fee = r2.fee <;> simp [reportBranch, h]
  · intro r1' r2' ha hb
    simp [reportBranch, ha, hb]
  · intro cfg c rep sf hm
    obtain ⟨w, a1, s1, a2, _, _, _, hrep⟩ := main_ok_inv cfg c rep sf hm
    subst hrep
    rfl

theorem reporter_fee_equality_branch_witness :
    reportBranch (resultFee "Standard Transfer" "a" 5000) (resultFee "x" "b" 5000)
        = .equalFees 5000
    ∧ reportBranch (resultFee "Standard Transfer" "a" 5000) (resultFee "y" "c" 7000)
        = .differentFees 5000 7000 := by
  have h1 := (reporter_fee_equality_branch (resultFee "Standard Transfer" "a" 5000)
      (resultFee "x" "b" 5000)).1
  exact ⟨h1.mpr rfl, rfl⟩

/-- C7: the compress instruction is built with the first state tree whose
`nextTreeInfo` is null and the first token pool of the native mint, and
(after a successful wrap submission) it is the next transaction submitted. -/
theorem compress_tree_and_pool_selection
    (cfg : Config) (w : PubKey) (c : Chain) (s : RunState)
    (t : TreeInfo) (p : TokenPoolInfo) (ps : List TokenPoolInfo) (v1 : TxHash)
    (htree : c.stateTreeInfos.find? (fun tr => tr.nextTreeInfo = none) = some t)
    (hpool : c.tokenPools NATIVE_SOL_MINT = p :: ps)
    (h1 : sendResp c s.sends = .ok v1) :
    compressIxOf c w
        = .compress w w (deriveAta NATIVE_SOL_MINT w) w lamportsToCompress
            NATIVE_SOL_MINT (some t) (some p)
    ∧ ∃ rest2,
        (testCompressedTransfer cfg w c s).2.actions
          = s.actions ++ .submit (wrapTxOf c w)
              :: .submit [computeUnitsIx, compressIxOf c w] :: rest2 := by
  constructor
  · simp [compressIxOf, head_filter_eq_find, htree, hpool]
  · exact compressedRun_trace_after_wrap cfg w c s v1 h1

theorem compress_tree_and_pool_selection_witness :
    compressIxOf chainOk walletW
        = .compress walletW walletW (deriveAta NATIVE_SOL_MINT walletW) walletW
            lamportsToCompress NATIVE_SOL_MINT
            (some ⟨"treeB", none⟩) (some ⟨"pool1"⟩)
    ∧ ∃ rest2,
        (testCompressedTransfer cfgW walletW chainOk initialState).2.actions
          = initialState.actions ++ .submit (wrapTxOf chainOk walletW)
              :: .submit [computeUnitsIx, compressIxOf chainOk walletW] :: rest2 :=
  compress_tree_and_pool_selection cfgW walletW chainOk initialState
    ⟨"treeB", none⟩ ⟨"pool1"⟩ [⟨"pool2"⟩] "h1" rfl rfl rfl

/-- C8: in a successful run, the standard probe completes — its result is
returned — before the compressed probe begins, and the fixed 5000 ms sleep
sits between the end of the first probe's trace and all of the second
probe's actions. -/
theorem probes_sequential_with_fixed_pause
    (cfg : Config) (c : Chain) (rep : Report) (sf : RunState)
    (hm : main cfg c initialState = (.ok rep, sf)) :
    ∃ w r1 s1 r2,
      loadWallet cfg = .ok w
      ∧ testStandardTransfer cfg w c initialState = (.ok r1, s1)
      ∧ testCompressedTransfer cfg w c ⟨s1.actions ++ [.sleep 5000], s1.sends, s1.confs⟩
          = (.ok r2, sf)
      ∧ rep.standard = r1 ∧ rep.compressed = r2
      ∧ ∃ t2, sf.actions = s1.actions ++ .sleep 5000 :: t2 := by
  obtain ⟨w, r1, s1, r2, hw, hstd, hcomp, hrep⟩ := main_ok_inv cfg c rep sf hm
  refine ⟨w, r1, s1, r2, hw, hstd, hcomp, by rw [hrep], by rw [hrep], ?_⟩
  obtain ⟨rest, hsh, _⟩ := compressedRun_trace_shape cfg w c
      ⟨s1.actions ++ [.sleep 5000], s1.sends, s1.confs⟩
  rw [hcomp] at hsh
  exact ⟨.submit (wrapTxOf c w) :: rest, by simpa using hsh⟩

theorem probes_sequential_with_fixed_pause_witness :
    ∃ w r1 s1 r2,
      loadWallet cfgW = .ok w
      ∧ testStandardTransfer cfgW w chainOk initialState = (.ok r1, s1)
      ∧ testCompressedTransfer cfgW w chainOk
            ⟨s1.actions ++ [.sleep 5000], s1.sends, s1.confs⟩ = (.ok r2, sfW)
      ∧ repW.standard = r1 ∧ repW.compressed = r2
      ∧ ∃ t2, sfW.actions = s1.actions ++ .sleep 5000 :: t2 :=
  probes_sequential_with_fixed_pause cfgW chainOk repW sfW rfl

/-- C9: when the fetched transaction record is null, or its metadata or fee
is missing, or the fee is zero, both probes succeed and report fee 0 with
display value "0.000000000" instead of raising an error. -/
theorem missing_fee_reported_as_zero
    (cfg : Config) (w : PubKey) (c : Chain) (s s2 : RunState)
    (v1 vA vB vC : TxHash)
    (hstd : sendResp c s.sends = .ok v1)
    (hstdrec : c.txRecord v1 = none ∨ c.txRecord v1 = some ⟨none⟩
        ∨ c.txRecord v1 = some ⟨some ⟨none⟩⟩ ∨ c.txRecord v1 = some ⟨some ⟨some 0⟩⟩)
    (hA : sendResp c s2.sends = .ok vA)
    (hB : sendResp c (s2.sends + 1) = .ok vB)
    (hcA : confirmResp c s2.confs = .ok ())
    (hC : sendResp c (s2.sends + 2) = .ok vC)
    (hcB : confirmResp c (s2.confs + 1) = .ok ())
    (hcrec : c.txRecord vC = none ∨ c.txRecord vC = some ⟨none⟩
        ∨ c.txRecord vC = some ⟨some ⟨none⟩⟩ ∨ c.txRecord vC = some ⟨some ⟨some 0⟩⟩) :
    ((testStandardTransfer cfg w c s).1
        = .ok (resultFee "Standard Transfer" v1 0)
      ∧ (resultFee "Standard Transfer" v1 0).fee = 0
      ∧ (resultFee "Standard Transfer" v1 0).feeSOL = "0.000000000")
    ∧ ((testCompressedTransfer cfg w c s2).1
        = .ok (resultFee "Compressed Transfer" vC 0)
      ∧ (resultFee "Compressed Transfer" vC 0).fee = 0
      ∧ (resultFee "Compressed Transfer" vC 0).feeSOL = "0.000000000") := by
  have hj1 : jsFee (c.txRecord v1) = 0 := by
    rcases hstdrec with h | h | h | h <;> simp [jsFee, h]
  have hjC : jsFee (c.txRecord vC) = 0 := by
    rcases hcrec with h | h | h | h <;> simp [jsFee, h]
  refine ⟨⟨?_, rfl, rfl⟩, ⟨?_, rfl, rfl⟩⟩
  · simp [testStandardTransfer, sendTx, hstd, hj1, resultFee]
  · rw [compressedRun_ok cfg w c s2 vA vB vC hA hB hcA hC hcB]
    simp [hjC]

theorem missing_fee_reported_as_zero_witness :
    ((testStandardTransfer cfgW walletW chainNoFee initialState).1
        = .ok (resultFee "Standard Transfer" "h1" 0)
      ∧ (resultFee "Standard Transfer" "h1" 0).fee = 0
      ∧ (resultFee "Standard Transfer" "h1" 0).feeSOL = "0.000000000")
    ∧ ((testCompressedTransfer cfgW walletW chainNoFee initialState).1
        = .ok (resultFee "Compressed Transfer" "h3" 0)
      ∧ (resultFee "Compressed Transfer" "h3" 0).fee = 0
      ∧ (resultFee "Compressed Transfer" "h3" 0).feeSOL = "0.000000000") :=
  missing_fee_reported_as_zero cfgW walletW chainNoFee initialState initialState
    "h1" "h1" "h2" "h3" rfl (.inr (.inl rfl)) rfl rfl rfl rfl rfl (.inl rfl)

/-- C10: when no state tree has a null next-tree pointer and the native
mint's token-pool list is empty, the script performs no guarding of its own:
the two unguarded `[0]` lookups produce absent values that are passed
directly into the compress-instruction builder, the compress transaction is
still submitted, and (with a cooperative backend) the probe still returns a
result instead of aborting with a descriptive error. -/
theorem no_writable_tree_unguarded
    (cfg : Config) (w : PubKey) (c : Chain) (s : RunState) (v1 v2 v3 : TxHash)
    (htree : ∀ tr ∈ c.stateTreeInfos, tr.nextTreeInfo ≠ none)
    (hpool : c.tokenPools NATIVE_SOL_MINT = [])
    (h1 : sendResp c s.sends = .ok v1)
    (h2 : sendResp c (s.sends + 1) = .ok v2)
    (hc1 : confirmResp c s.confs = .ok ())
    (h3 : sendResp c (s.sends + 2) = .ok v3)
    (hc2 : confirmResp c (s.confs + 1) = .ok ()) :
    compressIxOf c w
        = .compress w w (deriveAta NATIVE_SOL_MINT w) w lamportsToCompress
            NATIVE_SOL_MINT none none
    ∧ (∃ r, (testCompressedTransfer cfg w c s).1 = .ok r)
    ∧ ∃ rest2,
        (testCompressedTransfer cfg w c s).2.actions
          = s.actions ++ .submit (wrapTxOf c w)
              :: .submit [computeUnitsIx, compressIxOf c w] :: rest2 := by
  refine ⟨?_, ?_, compressedRun_trace_after_wrap cfg w c s v1 h1⟩
  · have hfil : c.stateTreeInfos.filter (fun tr => tr.nextTreeInfo = none) = [] := by
      simp only [List.filter_eq_nil_iff]
      intro a ha
      simpa using htree a ha
    simp [compressIxOf, hfil, hpool]
  · exact ⟨resultFee "Compressed Transfer" v3 (jsFee (c.txRecord v3)),
      by rw [compressedRun_ok cfg w c s v1 v2 v3 h1 h2 hc1 h3 hc2]⟩

theorem no_writable_tree_unguarded_witness :
    compressIxOf chainNoTree walletW
        = .compress walletW walletW (deriveAta NATIVE_SOL_MINT walletW) walletW
            lamportsToCompress NATIVE_SOL_MINT none none
    ∧ (∃ r, (testCompressedTransfer cfgW walletW chainNoTree initialState).1 = .ok r)
    ∧ ∃ rest2,
        (testCompressedTransfer cfgW walletW chainNoTree initialState).2.actions
          = initialState.actions ++ .submit (wrapTxOf chainNoTree walletW)
              :: .submit [computeUnitsIx, compressIxOf chainNoTree walletW] :: rest2 :=
  no_writable_tree_unguarded cfgW walletW chainNoTree initialState "h1" "h2" "h3"
    (by decide) rfl rfl rfl rfl rfl rfl

end ZkFee
